import Mathlib

/-!
# Verification of the image-processing API core

Shallow embedding of the repository's cache-key derivation, cache lookup,
image transformer and request orchestration (Express route plus cache
middleware), together with theorems settling the specification claims.

Sources embedded:
* `src/utils/imageProcessor.ts` — `generateProcessedFilename`, `processImage`,
  `imageExists`, the input/output folder constants;
* `src/middleware/cache.ts` — `generateCacheKey`, `checkCache`,
  `cacheMiddleware`;
* `src/routes/images/index.ts` — the `GET /` route handler.

JavaScript numbers reaching this code are always produced by `parseInt`, so
they are integers or `NaN`; we model them as `JSNum`.  JavaScript truthiness
(`0`, `NaN`, `""`, `undefined` are falsy) is modelled explicitly.  Node's
`path.parse` (posix) is modelled on character lists.  All definitions are
total computable functions.
-/

/-- A JavaScript number as produced by `parseInt`: an integer or `NaN`.
(`parseInt` never returns a fractional value; the float rounding of huge
digit strings is idealised away — all inputs of interest are small.) -/
inductive JSNum where
  | num (n : Int)
  | nan
deriving DecidableEq, Repr

/-- JS truthiness of an optional number (`undefined`, `0` and `NaN` are falsy). -/
def truthyNum : Option JSNum → Bool
  | some (.num n) => n != 0
  | some .nan => false
  | none => false

/-- JS truthiness of an optional string (`undefined` and `""` are falsy). -/
def truthyStr : Option String → Bool
  | some s => s != ""
  | none => false

/-- JS `a || b` on strings: `a` when truthy, else `b`. -/
def strOr (a b : String) : String := if a = "" then b else a

/-- Value of an optional string under JS coercion: `undefined` behaves like a
falsy value; it is only ever used through `strOr`, where it acts like `""`. -/
def optStrVal : Option String → String
  | some s => s
  | none => ""

/-- Whitespace skipped by JS `parseInt`. -/
def isJsSpace (c : Char) : Bool :=
  c == ' ' || c == '\t' || c == '\n' || c == '\r'

/-- Decimal digit accumulation. -/
def natOfDec (cs : List Char) : Nat :=
  cs.foldl (fun a c => a * 10 + (c.toNat - 48)) 0

/-- Hexadecimal digit test. -/
def isHexDigitJs (c : Char) : Bool :=
  c.isDigit || ('a' ≤ c && c ≤ 'f') || ('A' ≤ c && c ≤ 'F')

/-- Hexadecimal digit accumulation. -/
def natOfHex (cs : List Char) : Nat :=
  cs.foldl
    (fun a c =>
      a * 16 +
        (if c.isDigit then c.toNat - 48
         else if 'a' ≤ c then c.toNat - 87
         else c.toNat - 55))
    0

/-- JS `parseInt(s)` with radix unspecified: skip whitespace, optional sign,
optional `0x`/`0X` hex prefix, then the longest digit run; `NaN` when no
digits follow. -/
def parseIntJS (s : String) : JSNum :=
  let cs := s.toList.dropWhile isJsSpace
  let sgn : Int := match cs with | '-' :: _ => -1 | _ => 1
  let cs2 := match cs with | '-' :: r => r | '+' :: r => r | _ => cs
  let hexTail : Option (List Char) :=
    match cs2 with
    | '0' :: c :: r => if c == 'x' || c == 'X' then some r else none
    | _ => none
  match hexTail with
  | some r =>
      let ds := r.takeWhile isHexDigitJs
      if ds.isEmpty then JSNum.nan else JSNum.num (sgn * Int.ofNat (natOfHex ds))
  | none =>
      let ds := cs2.takeWhile Char.isDigit
      if ds.isEmpty then JSNum.nan else JSNum.num (sgn * Int.ofNat (natOfDec ds))

/-!
## Node `path.parse` (posix), on character lists

`path.parse(f).name` / `.ext` for a posix path: trailing separators are
ignored, the basename is the part after the last `/`, and the extension is
the part of the basename from its last dot — except when that dot is the
basename's first character, or the basename is exactly `".."`, in which case
the extension is empty and `name` is the whole basename.
-/

/-- Trailing `/` characters are ignored by `path.parse`. -/
def dropTrailingSep (l : List Char) : List Char :=
  (l.reverse.dropWhile (fun c => c == '/')).reverse

/-- Segment after the last `/` (on a list with no trailing separators). -/
def lastSegment (l : List Char) : List Char :=
  (l.reverse.takeWhile (fun c => c != '/')).reverse

/-- The basename `path.parse` splits: last segment, trailing `/`s dropped. -/
def basenameL (l : List Char) : List Char :=
  lastSegment (dropTrailingSep l)

/-- Split a basename into `(name, ext)` following Node `path.parse`:
`ext` starts at the last dot, but a dot that is the first character, or the
basename `".."`, yields no extension. -/
def splitExtL (b : List Char) : List Char × List Char :=
  if b = ['.', '.'] then (b, []) else
  let rev := b.reverse
  let after := rev.takeWhile (fun c => c != '.')
  if after.length = b.length then (b, [])
  else if rev.drop (after.length + 1) = [] then (b, [])
  else ((rev.drop (after.length + 1)).reverse, '.' :: after.reverse)

/-- `path.parse(s).name` on the underlying character list. -/
def parseNameL (l : List Char) : List Char := (splitExtL (basenameL l)).1

/-- `path.parse(s).ext` on the underlying character list (dot included). -/
def parseExtL (l : List Char) : List Char := (splitExtL (basenameL l)).2

/-- JS `str.replace('.', '')`: delete the first `'.'` occurrence. -/
def removeFirstDot : List Char → List Char
  | [] => []
  | c :: r => if c = '.' then r else c :: removeFirstDot r

/-- `path.parse(s).name` as a string. -/
def pathParseName (s : String) : String := ⟨parseNameL s.toList⟩

/-- `path.parse(s).ext.replace('.', '')` as a string. -/
def pathParseExtNoDot (s : String) : String := ⟨removeFirstDot (parseExtL s.toList)⟩

/-!
## The `ImageProcessingOptions` record (`src/config/types.ts`)
-/

/-- `ImageProcessingOptions`: filename plus optional width/height/format.
Width and height are whatever `parseInt` produced (possibly `NaN`). -/
structure ImageProcessingOptions where
  filename : String
  width : Option JSNum := none
  height : Option JSNum := none
  format : Option String := none
deriving DecidableEq, Repr

/-- `` `${options.width || 'auto'}` `` — the dimension token used inside the
key: the number when truthy, the literal `auto` otherwise. -/
def renderDim : Option JSNum → String
  | some (.num n) => if n != 0 then toString n else "auto"
  | _ => "auto"

/-!
## The two key-derivation functions

`generateCacheKey` (cache middleware) and `generateProcessedFilename`
(image processor) are embedded separately, each from its own source text;
the two source functions are line-for-line duplicates of one another.
-/

/-- `generateCacheKey` from `src/middleware/cache.ts` (lines 27–40). -/
def generateCacheKey (o : ImageProcessingOptions) : String :=
  let fileNameWithoutExt := pathParseName o.filename
  let extension := strOr (optStrVal o.format) (strOr (pathParseExtNoDot o.filename) "jpg")
  let dimensions :=
    if truthyNum o.width || truthyNum o.height then
      "_" ++ renderDim o.width ++ "x" ++ renderDim o.height
    else ""
  fileNameWithoutExt ++ dimensions ++ "." ++ extension

/-- `generateProcessedFilename` from `src/utils/imageProcessor.ts`
(lines 43–56). -/
def generateProcessedFilename (o : ImageProcessingOptions) : String :=
  let fileNameWithoutExt := pathParseName o.filename
  let extension := strOr (optStrVal o.format) (strOr (pathParseExtNoDot o.filename) "jpg")
  let dimensions :=
    if truthyNum o.width || truthyNum o.height then
      "_" ++ renderDim o.width ++ "x" ++ renderDim o.height
    else ""
  fileNameWithoutExt ++ dimensions ++ "." ++ extension

/-!
## Directory constants

`imageProcessor.ts` resolves `inputFolder = path.resolve(__dirname, '../../images')`
and `outputFolder = path.resolve(__dirname, '../../public/images/processed')`
with `__dirname = <root>/src/utils`; `cache.ts` resolves its own
`outputFolder = path.resolve(__dirname, '../../public/images/processed')`
with `__dirname = <root>/src/middleware`.  We model absolute directories as
segment lists under an arbitrary project root and `path.resolve`'s `..`
normalisation explicitly.
-/

/-- `path.resolve` segment normalisation: apply relative segments (possibly
`..`) to an absolute base. -/
def resolveSegs : List String → List String → List String
  | acc, [] => acc
  | acc, s :: rest =>
      if s = ".." then resolveSegs acc.dropLast rest
      else resolveSegs (acc ++ [s]) rest

/-- `__dirname` of a module file under `src/`. -/
def srcModuleSegs (root : List String) (m : String) : List String :=
  root ++ ["src", m]

/-- `outputFolder` of `src/utils/imageProcessor.ts`. -/
def outputFolderSegs (root : List String) : List String :=
  resolveSegs (srcModuleSegs root "utils") ["..", "..", "public", "images", "processed"]

/-- `inputFolder` of `src/utils/imageProcessor.ts`. -/
def inputFolderSegs (root : List String) : List String :=
  resolveSegs (srcModuleSegs root "utils") ["..", "..", "images"]

/-- `outputFolder` of `src/middleware/cache.ts`. -/
def cacheOutputFolderSegs (root : List String) : List String :=
  resolveSegs (srcModuleSegs root "middleware") ["..", "..", "public", "images", "processed"]

/-- Render an absolute directory as a path string. -/
def segsPath (l : List String) : String :=
  l.foldl (fun a s => a ++ "/" ++ s) ""

/-- `path.join(dir, file)` for a normal relative `file` (no normalisation is
needed for the components this system produces). -/
def joinPath (dir file : String) : String := dir ++ "/" ++ file

/-!
## Filesystem state and effect outcomes

The filesystem is modelled by the two directories this system touches: the
names present in the input directory and the absolute paths present in the
(shared) processed-output directory.  Fallible effects (`mkdir`, the codec
write, the cache-existence probe) are inputs to the model: each run is
parameterised by the outcome the environment would produce for them.
-/

/-- Observable filesystem state. -/
structure Fs where
  inputFiles : List String
  outputPaths : List String
  outputDirExists : Bool
deriving DecidableEq, Repr

/-- Outcome of `fs.promises.mkdir(outputFolder, { recursive: true })`. -/
inductive MkdirOutcome where
  | ok
  | error (msg : String)
deriving DecidableEq, Repr

/-- Outcome of the black-box codec pipeline ending in `toFile(outputPath)`.
A failing direct write may or may not leave (partial) bytes at the path it
was given; `leavesCorruptFile` records which. -/
inductive CodecOutcome where
  | success
  | failure (msg : String) (leavesCorruptFile : Bool)
deriving DecidableEq, Repr

/-- The distinct throw sites inside `processImage`'s `try` block. -/
inductive InnerError where
  | inputNotFound (path : String)
  | mkdirFailed (msg : String)
  | codecError (msg : String)
deriving DecidableEq, Repr

/-- The error `processImage` raises: its `catch` wraps every inner error in
`new Error("Failed to process image: " + error)`. -/
inductive ProcError where
  | failedToProcess (inner : InnerError)
deriving DecidableEq, Repr

/-- Result of `processImage`: the output path, or the wrapped error. -/
inductive ProcResult where
  | okPath (path : String)
  | procError (e : ProcError)
deriving DecidableEq, Repr

/-- Filesystem operations `processImage` performs, in order. -/
inductive FsOp where
  | mkdirOp (path : String)
  | srcExistsCheck (path : String)
  | codecRead (path : String)
  | codecResize (width height : Option JSNum)
  | codecFormat (fmt : String)
  | codecWrite (path : String)
  | renameOp (src dst : String)
deriving DecidableEq, Repr

/-- `processImage`'s result, the trace of its filesystem operations, and the
filesystem state it leaves behind. -/
structure ProcOutcome where
  result : ProcResult
  trace : List FsOp
  fs : Fs
deriving DecidableEq, Repr

/-- String renderings of the inner errors (`${error}` on an `Error`). -/
def renderInner : InnerError → String
  | .inputNotFound p => "Error: Input file not found: " ++ p
  | .mkdirFailed e => "Error: Failed to create output directory: " ++ e
  | .codecError e => e

/-- String rendering of `processImage`'s raised error. -/
def renderProcError : ProcError → String
  | .failedToProcess i => "Error: Failed to process image: " ++ renderInner i

/-- Body of `processImage` (lines 71–103 of `imageProcessor.ts`) after
`ensureOutputFolderExists` has succeeded: build the paths, check that the
input file exists, run the codec pipeline, write the output. -/
def transformCore (root : List String) (st : Fs) (codecRes : CodecOutcome)
    (o : ImageProcessingOptions) (tr0 : List FsOp) : ProcOutcome :=
  let inputPath := joinPath (segsPath (inputFolderSegs root)) o.filename
  let outputFilename := generateProcessedFilename o
  let outputPath := joinPath (segsPath (outputFolderSegs root)) outputFilename
  if o.filename ∈ st.inputFiles then
    let codecTrace :=
      [FsOp.codecRead inputPath]
        ++ (if truthyNum o.width || truthyNum o.height then
              [FsOp.codecResize o.width o.height] else [])
        ++ (if truthyStr o.format then [FsOp.codecFormat (optStrVal o.format)] else [])
        ++ [FsOp.codecWrite outputPath]
    match codecRes with
    | .success =>
        { result := .okPath outputPath
          trace := tr0 ++ [FsOp.srcExistsCheck inputPath] ++ codecTrace
          fs := { st with outputPaths := outputPath :: st.outputPaths } }
    | .failure e corrupt =>
        { result := .procError (.failedToProcess (.codecError e))
          trace := tr0 ++ [FsOp.srcExistsCheck inputPath] ++ codecTrace
          fs := if corrupt then { st with outputPaths := outputPath :: st.outputPaths }
                else st }
  else
    { result := .procError (.failedToProcess (.inputNotFound inputPath))
      trace := tr0 ++ [FsOp.srcExistsCheck inputPath]
      fs := st }

/-- `processImage` from `src/utils/imageProcessor.ts` (lines 64–108):
`ensureOutputFolderExists`, then `transformCore`; every inner throw is
wrapped by the `catch` into `failedToProcess`. -/
def processImage (root : List String) (st : Fs) (mkdirRes : MkdirOutcome)
    (codecRes : CodecOutcome) (o : ImageProcessingOptions) : ProcOutcome :=
  if st.outputDirExists then transformCore root st codecRes o []
  else
    match mkdirRes with
    | .ok =>
        transformCore root { st with outputDirExists := true } codecRes o
          [FsOp.mkdirOp (segsPath (outputFolderSegs root))]
    | .error e =>
        { result := .procError (.failedToProcess (.mkdirFailed e))
          trace := [FsOp.mkdirOp (segsPath (outputFolderSegs root))]
          fs := st }

/-- `imageExists` from `src/utils/imageProcessor.ts` (lines 116–124). -/
def imageExists (st : Fs) (filename : String) : Bool :=
  decide (filename ∈ st.inputFiles)

/-!
## Cache store and request pipeline
-/

/-- Outcome of the `fs.existsSync` probe inside `checkCache`: a boolean, or
a thrown storage error. -/
inductive ProbeOutcome where
  | ok (b : Bool)
  | error (msg : String)
deriving DecidableEq, Repr

/-- The path `checkCache` probes: the middleware's `outputFolder` joined
with the derived cache key. -/
def cachedFilePath (root : List String) (o : ImageProcessingOptions) : String :=
  joinPath (segsPath (cacheOutputFolderSegs root)) (generateCacheKey o)

/-- `checkCache` from `src/middleware/cache.ts` (lines 48–66): probe the
cached path; a thrown storage error is caught and reported as a miss. -/
def checkCache (root : List String) (probe : String → ProbeOutcome)
    (o : ImageProcessingOptions) : Option String :=
  let cachedPath := cachedFilePath root o
  match probe cachedPath with
  | .ok true => some cachedPath
  | .ok false => none
  | .error _ => none

/-- The error-free probe a filesystem state answers. -/
def fsProbe (st : Fs) : String → ProbeOutcome :=
  fun p => .ok (decide (p ∈ st.outputPaths))

/-- Raw query parameters of a request (`none` = parameter absent). -/
structure Query where
  filename : Option String := none
  width : Option String := none
  height : Option String := none
  format : Option String := none
deriving DecidableEq, Repr

/-- The options record both the cache middleware (lines 82–87) and the route
handler (lines 34–39) assemble from the query: `width`/`height` are
`parseInt` of the raw value when that value is truthy, else `undefined`.
An absent `filename` (`undefined` after the `as string` cast) and `""` are
both falsy and the value is only used when truthy, so `optStrVal` is a
faithful reading. -/
def parseOptions (q : Query) : ImageProcessingOptions :=
  { filename := optStrVal q.filename
    width :=
      match q.width with
      | some s => if s = "" then none else some (parseIntJS s)
      | none => none
    height :=
      match q.height with
      | some s => if s = "" then none else some (parseIntJS s)
      | none => none
    format := q.format }

/-- The route handler's dimension test
`options.w !== undefined && (isNaN(options.w) || options.w <= 0)`. -/
def invalidDim : Option JSNum → Bool
  | none => false
  | some .nan => true
  | some (.num n) => decide (n ≤ 0)

/-- HTTP-level outcome of a request. -/
inductive Outcome where
  | servedFile (path : String)
  | badRequest (body : String)
  | notFoundResp (body : String)
  | serverError (body : String)
deriving DecidableEq, Repr

/-- What the cache middleware does with a request: respond itself, serve a
cache hit, or fall through to the route handler with the parsed options in
`res.locals`. -/
inductive MiddlewareResult where
  | reply (r : Outcome)
  | cacheHit (path : String)
  | nextWith (o : ImageProcessingOptions)
deriving DecidableEq, Repr

/-- `cacheMiddleware` from `src/middleware/cache.ts` (lines 75–111). -/
def cacheMiddleware (root : List String) (probe : String → ProbeOutcome)
    (q : Query) : MiddlewareResult :=
  let options := parseOptions q
  if options.filename = "" then
    .reply (.badRequest "Missing required parameter: filename")
  else
    match checkCache root probe options with
    | some p => .cacheHit p
    | none => .nextWith options

/-- Result of one whole request: the response, whether it was served from
cache, whether `processImage` ran, and the filesystem state left behind. -/
structure RequestResult where
  outcome : Outcome
  servedFromCache : Bool
  transformInvoked : Bool
  fs : Fs
deriving DecidableEq, Repr

/-- The `GET /` route handler from `src/routes/images/index.ts`
(lines 31–72), receiving the options the middleware stored in
`res.locals.imageOptions`: filename check, `imageExists` check, dimension
validation, then `processImage`. -/
def routeHandler (root : List String) (st : Fs) (mkdirRes : MkdirOutcome)
    (codecRes : CodecOutcome) (o : ImageProcessingOptions) : RequestResult :=
  if o.filename = "" then
    { outcome := .badRequest "Missing required parameter: filename"
      servedFromCache := false, transformInvoked := false, fs := st }
  else if o.filename ∉ st.inputFiles then
    { outcome := .notFoundResp ("Image '" ++ o.filename ++ "' not found")
      servedFromCache := false, transformInvoked := false, fs := st }
  else if invalidDim o.width || invalidDim o.height then
    { outcome := .badRequest "Width and height must be positive numbers"
      servedFromCache := false, transformInvoked := false, fs := st }
  else
    let pr := processImage root st mkdirRes codecRes o
    match pr.result with
    | .okPath p =>
        { outcome := .servedFile p
          servedFromCache := false, transformInvoked := true, fs := pr.fs }
    | .procError e =>
        { outcome := .serverError ("Internal server error: " ++ renderProcError e)
          servedFromCache := false, transformInvoked := true, fs := pr.fs }

/-- One whole request through the Express pipeline: `cacheMiddleware` first,
then (on `next()`) the route handler, with an explicit cache probe. -/
def handleRequestP (root : List String) (st : Fs) (probe : String → ProbeOutcome)
    (mkdirRes : MkdirOutcome) (codecRes : CodecOutcome) (q : Query) : RequestResult :=
  match cacheMiddleware root probe q with
  | .reply r =>
      { outcome := r, servedFromCache := false, transformInvoked := false, fs := st }
  | .cacheHit p =>
      { outcome := .servedFile p, servedFromCache := true, transformInvoked := false, fs := st }
  | .nextWith o => routeHandler root st mkdirRes codecRes o

/-- One whole request with the probe answered by the filesystem state. -/
def handleRequest (root : List String) (st : Fs) (mkdirRes : MkdirOutcome)
    (codecRes : CodecOutcome) (q : Query) : RequestResult :=
  handleRequestP root st (fsProbe st) mkdirRes codecRes q

/-!
## Spec-side definitions (written from the claims' words, for refinement)

`specStripExtL` / `specExtL` read §4.1 literally: "base = filename stripped
of its extension" / "the original filename's extension (without the dot)",
taking the extension of the whole filename string at its last dot.
`claimKeyC1` is the key formula exactly as claim C1 states it.
-/

/-- Claim-side "filename stripped of its extension": everything before the
last dot of the whole string, or the whole string when it has no dot. -/
def specStripExtL (l : List Char) : List Char :=
  let rev := l.reverse
  let after := rev.takeWhile (fun c => c != '.')
  if after.length = l.length then l else (rev.drop (after.length + 1)).reverse

/-- Claim-side "the filename's extension without the dot": everything after
the last dot of the whole string, or `[]` when it has no dot. -/
def specExtL (l : List Char) : List Char :=
  let after := l.reverse.takeWhile (fun c => c != '.')
  if after.length = l.length then [] else after.reverse

/-- Claim-side base, as a string. -/
def specBase (f : String) : String := ⟨specStripExtL f.toList⟩

/-- Claim-side extension (without the dot), as a string. -/
def specExt (f : String) : String := ⟨specExtL f.toList⟩

/-- Claim C1's dimension token: the literal value when given, else `auto`. -/
def claimDimTok : Option JSNum → String
  | some (.num n) => toString n
  | _ => "auto"

/-- Claim C1's dims: empty when width and height are both absent, else
`"_" + (width or "auto") + "x" + (height or "auto")`. -/
def claimDims : Option JSNum → Option JSNum → String
  | none, none => ""
  | w, h => "_" ++ claimDimTok w ++ "x" ++ claimDimTok h

/-- Claim C1's ext: the requested format if given, else the filename's
extension without the dot, else `jpg`. -/
def claimExt (fmt : Option String) (f : String) : String :=
  match fmt with
  | some s => s
  | none => if specExt f = "" then "jpg" else specExt f

/-- The key formula exactly as claim C1 words it: `base + dims + "." + ext`
with base the filename without its extension. -/
def claimKeyC1 (o : ImageProcessingOptions) : String :=
  specBase o.filename ++ claimDims o.width o.height ++ "." ++ claimExt o.format o.filename

/-- §3's ProcessingRequest invariant: width/height, when present, are
positive integers; a present format names an encoding, hence is nonempty. -/
def validReq (o : ImageProcessingOptions) : Bool :=
  (match o.width with
   | none => true
   | some (.num n) => decide (0 < n)
   | some .nan => false) &&
  (match o.height with
   | none => true
   | some (.num n) => decide (0 < n)
   | some .nan => false) &&
  (match o.format with
   | none => true
   | some f => f != "")

/-- Which trace operations belong to the codec. -/
def isCodecOp : FsOp → Bool
  | .codecRead _ => true
  | .codecResize _ _ => true
  | .codecFormat _ => true
  | .codecWrite _ => true
  | _ => false

/-- The precedence the pipeline actually implements, written flat:
filename-presence check, then cache lookup; only on a miss the
source-existence check, then dimension validation, then the transform. -/
def orderedOrchestrator (root : List String) (st : Fs) (probe : String → ProbeOutcome)
    (mkdirRes : MkdirOutcome) (codecRes : CodecOutcome) (q : Query) : RequestResult :=
  let o := parseOptions q
  if o.filename = "" then
    { outcome := .badRequest "Missing required parameter: filename"
      servedFromCache := false, transformInvoked := false, fs := st }
  else
    match checkCache root probe o with
    | some p =>
        { outcome := .servedFile p
          servedFromCache := true, transformInvoked := false, fs := st }
    | none =>
        if o.filename ∉ st.inputFiles then
          { outcome := .notFoundResp ("Image '" ++ o.filename ++ "' not found")
            servedFromCache := false, transformInvoked := false, fs := st }
        else if invalidDim o.width || invalidDim o.height then
          { outcome := .badRequest "Width and height must be positive numbers"
            servedFromCache := false, transformInvoked := false, fs := st }
        else
          let pr := processImage root st mkdirRes codecRes o
          match pr.result with
          | .okPath p =>
              { outcome := .servedFile p
                servedFromCache := false, transformInvoked := true, fs := pr.fs }
          | .procError e =>
              { outcome := .serverError ("Internal server error: " ++ renderProcError e)
                servedFromCache := false, transformInvoked := true, fs := pr.fs }

/-- Concrete filesystem state for the C6 witness. -/
def c6St : Fs := ⟨["sample.jpg"], [], true⟩

/-- Concrete query for the C6 witness. -/
def c6Q : Query := ⟨some "sample.jpg", some "300", some "200", none⟩

/-- Concrete output path for the C6 witness. -/
def c6P : String := "/r/public/images/processed/sample_300x200.jpg"

/-!
## List helper lemmas
-/

theorem dropWhile_eq_self_of_all {α} (p : α → Bool) (l : List α)
    (h : ∀ a ∈ l, p a = false) : l.dropWhile p = l := by
  cases l with
  | nil => rfl
  | cons c r => simp [List.dropWhile_cons, h c (by simp)]

theorem takeWhile_eq_self_of_all {α} (p : α → Bool) :
    ∀ l : List α, (∀ a ∈ l, p a = true) → l.takeWhile p = l := by
  intro l h
  induction l with
  | nil => rfl
  | cons c r ih =>
      simp only [List.takeWhile_cons, h c (by simp), if_true]
      rw [ih (fun a ha => h a (by simp [ha]))]

theorem dropWhile_head_not {α} (p : α → Bool) :
    ∀ (l : List α) (c : α) (r : List α), l.dropWhile p = c :: r → p c = false := by
  intro l
  induction l with
  | nil => intro c r h; simp [List.dropWhile] at h
  | cons a t ih =>
      intro c r h
      rw [List.dropWhile_cons] at h
      by_cases hp : p a
      · exact ih c r (by simpa [hp] using h)
      · rw [if_neg hp] at h
        injection h with h1 _
        rw [← h1]
        simpa using hp

theorem dropLast_append_single {α} (l : List α) (a : α) :
    (l ++ [a]).dropLast = l := by
  simp

/-- With no separator in the filename, `path.parse` keeps it whole. -/
theorem basenameL_of_noSep (l : List Char) (h : '/' ∉ l) : basenameL l = l := by
  have h1 : l.reverse.dropWhile (fun c => c == '/') = l.reverse := by
    apply dropWhile_eq_self_of_all
    intro a ha
    have ha' : a ∈ l := by simpa using ha
    have : a ≠ '/' := fun hc => h (hc ▸ ha')
    simpa using this
  have h2 : l.reverse.takeWhile (fun c => c != '/') = l.reverse := by
    apply takeWhile_eq_self_of_all
    intro a ha
    have ha' : a ∈ l := by simpa using ha
    have : a ≠ '/' := fun hc => h (hc ▸ ha')
    simpa using this
  unfold basenameL dropTrailingSep lastSegment
  rw [h1, List.reverse_reverse, h2, List.reverse_reverse]

/-- On a basename that does not begin with a dot, Node's name/ext split
agrees with the naive last-dot split of the claims. -/
theorem splitExtL_of_head_ne_dot (l : List Char) (h : l.head? ≠ some '.') :
    (splitExtL l).1 = specStripExtL l ∧
      removeFirstDot (splitExtL l).2 = specExtL l := by
  have hne : l ≠ ['.', '.'] := by
    intro hl; rw [hl] at h; simp at h
  unfold splitExtL specStripExtL specExtL
  rw [if_neg hne]
  by_cases hlen : (l.reverse.takeWhile (fun c => c != '.')).length = l.length
  · simp [hlen, removeFirstDot]
  · rw [if_neg hlen, if_neg hlen, if_neg hlen]
    have hdrop :
        l.reverse.drop ((l.reverse.takeWhile (fun c => c != '.')).length + 1) ≠ [] := by
      set p : Char → Bool := fun c => c != '.' with hp
      set A := l.reverse.takeWhile p with hA
      set D := l.reverse.dropWhile p with hD
      have hsplit : A ++ D = l.reverse := by
        rw [hA, hD]; exact List.takeWhile_append_dropWhile p l.reverse
      have hDne : D ≠ [] := by
        intro hnil
        apply hlen
        have : A = l.reverse := by
          rw [← hsplit, hnil, List.append_nil]
        rw [hA] at this ⊢
        rw [this, List.length_reverse]
      obtain ⟨c, D', hcD⟩ : ∃ c D', D = c :: D' := by
        cases hDc : D with
        | nil => exact absurd hDc hDne
        | cons c D' => exact ⟨c, D', rfl⟩
      have hc : p c = false := dropWhile_head_not p l.reverse c D' (hD ▸ hcD)
      have hcdot : c = '.' := by simpa [hp] using hc
      have hdropA : l.reverse.drop A.length = D := by
        rw [← hsplit]
        exact List.drop_left A D
      intro hcontra
      have : l.reverse.drop (A.length + 1) = D' := by
        have h1 : l.reverse.drop (A.length + 1) = (l.reverse.drop A.length).drop 1 := by
          rw [List.drop_drop, Nat.add_comm]
        rw [h1, hdropA, hcD, List.drop_one, List.tail_cons]
      rw [this] at hcontra
      have hrev : l.reverse = A ++ ['.'] := by
        rw [← hsplit, hcD, hcdot, hcontra]
      have hl : l = '.' :: A.reverse := by
        have := congrArg List.reverse hrev
        rw [List.reverse_reverse, List.reverse_append] at this
        simpa using this
      rw [hl] at h
      simp at h
    rw [if_neg hdrop]
    constructor
    · rfl
    · simp [removeFirstDot]

theorem resolveSegs_dotdot (acc : List String) (rest : List String) :
    resolveSegs acc (".." :: rest) = resolveSegs acc.dropLast rest := by
  simp [resolveSegs]

theorem resolveSegs_seg (acc : List String) (s : String) (rest : List String)
    (hs : ¬ s = "..") :
    resolveSegs acc (s :: rest) = resolveSegs (acc ++ [s]) rest := by
  simp [resolveSegs, hs]

/-- `path.resolve(root/src/utils, '../../public/images/processed')` lands in
`root/public/images/processed`. -/
theorem outputFolderSegs_eq (root : List String) :
    outputFolderSegs root = root ++ ["public", "images", "processed"] := by
  unfold outputFolderSegs srcModuleSegs
  rw [show root ++ ["src", "utils"] = (root ++ ["src"]) ++ ["utils"] from by simp,
      resolveSegs_dotdot, dropLast_append_single,
      resolveSegs_dotdot, dropLast_append_single,
      resolveSegs_seg _ _ _ (by decide),
      resolveSegs_seg _ _ _ (by decide),
      resolveSegs_seg _ _ _ (by decide)]
  simp [resolveSegs]

/-- `path.resolve(root/src/middleware, '../../public/images/processed')`
lands in the same `root/public/images/processed`. -/
theorem cacheOutputFolderSegs_eq (root : List String) :
    cacheOutputFolderSegs root = root ++ ["public", "images", "processed"] := by
  unfold cacheOutputFolderSegs srcModuleSegs
  rw [show root ++ ["src", "middleware"] = (root ++ ["src"]) ++ ["middleware"] from by simp,
      resolveSegs_dotdot, dropLast_append_single,
      resolveSegs_dotdot, dropLast_append_single,
      resolveSegs_seg _ _ _ (by decide),
      resolveSegs_seg _ _ _ (by decide),
      resolveSegs_seg _ _ _ (by decide)]
  simp [resolveSegs]

/-- The transformer and the cache layer resolve the same output directory. -/
theorem outputFolder_shared (root : List String) :
    segsPath (outputFolderSegs root) = segsPath (cacheOutputFolderSegs root) := by
  rw [outputFolderSegs_eq, cacheOutputFolderSegs_eq]

/-- The two key functions are one function (the source duplicates the body
verbatim); shared helper for the claim theorems. -/
theorem keyFunsAgree (o : ImageProcessingOptions) :
    generateCacheKey o = generateProcessedFilename o := rfl

/-- The transformer's write path and the cache layer's probe path coincide
for every request. -/
theorem writePath_eq_probePath (root : List String) (o : ImageProcessingOptions) :
    joinPath (segsPath (outputFolderSegs root)) (generateProcessedFilename o)
      = cachedFilePath root o := by
  unfold cachedFilePath
  rw [outputFolder_shared, keyFunsAgree]


/-- Key equality for C1: on a plain filename (no separator, no leading dot)
and a valid request, the code's key equals the claim's formula. -/
theorem key_eq_claimKey (o : ImageProcessingOptions)
    (hv : validReq o = true)
    (hsep : '/' ∉ o.filename.toList)
    (hdot : o.filename.toList.head? ≠ some '.') :
    generateProcessedFilename o = claimKeyC1 o := by
  obtain ⟨f, w, h, fmt⟩ := o
  simp only [validReq, Bool.and_eq_true] at hv
  obtain ⟨⟨hw, hh⟩, hf⟩ := hv
  have hbase : basenameL f.toList = f.toList := basenameL_of_noSep f.toList hsep
  have hsplit := splitExtL_of_head_ne_dot f.toList hdot
  have hname : pathParseName f = specBase f := by
    unfold pathParseName specBase parseNameL
    rw [hbase, hsplit.1]
  have hext : pathParseExtNoDot f = specExt f := by
    unfold pathParseExtNoDot specExt parseExtL
    rw [hbase, hsplit.2]
  have hdims :
      (if truthyNum w || truthyNum h then
          "_" ++ renderDim w ++ "x" ++ renderDim h
        else "")
        = claimDims w h := by
    cases w with
    | none =>
        cases h with
        | none => rfl
        | some x =>
            cases x with
            | num n =>
                have hn : ¬ n = 0 := by intro h0; rw [h0] at hh; simp at hh
                simp [truthyNum, renderDim, claimDims, claimDimTok, hn]
            | nan => simp at hh
    | some x =>
        cases x with
        | num n =>
            have hn : ¬ n = 0 := by intro h0; rw [h0] at hw; simp at hw
            cases h with
            | none => simp [truthyNum, renderDim, claimDims, claimDimTok, hn]
            | some y =>
                cases y with
                | num m =>
                    have hm : ¬ m = 0 := by intro h0; rw [h0] at hh; simp at hh
                    simp [truthyNum, renderDim, claimDims, claimDimTok, hn, hm]
                | nan => simp at hh
        | nan => simp at hw
  have hextension :
      strOr (optStrVal fmt) (strOr (specExt f) "jpg")
        = claimExt fmt f := by
    cases fmt with
    | none => simp [strOr, optStrVal, claimExt]
    | some s =>
        have hs : ¬ s = "" := by simpa using hf
        simp [strOr, optStrVal, claimExt, hs]
  unfold generateProcessedFilename claimKeyC1
  simp only [hname, hext, hdims, hextension]

/-- The name component `splitExtL` returns is an initial run of its input. -/
theorem splitExtL_fst_takes (b : List Char) :
    ∃ t, b = (splitExtL b).1 ++ t := by
  unfold splitExtL
  by_cases h1 : b = ['.', '.']
  · rw [if_pos h1]; exact ⟨[], by simp⟩
  · rw [if_neg h1]
    by_cases h2 : (b.reverse.takeWhile (fun c => c != '.')).length = b.length
    · rw [if_pos h2]; exact ⟨[], by simp⟩
    · rw [if_neg h2]
      by_cases h3 :
          b.reverse.drop ((b.reverse.takeWhile (fun c => c != '.')).length + 1) = []
      · rw [if_pos h3]; exact ⟨[], by simp⟩
      · rw [if_neg h3]
        refine
          ⟨(b.reverse.take ((b.reverse.takeWhile (fun c => c != '.')).length + 1)).reverse, ?_⟩
        calc b = b.reverse.reverse := (List.reverse_reverse b).symm
          _ = (b.reverse.take ((b.reverse.takeWhile (fun c => c != '.')).length + 1)
                ++ b.reverse.drop ((b.reverse.takeWhile (fun c => c != '.')).length + 1)).reverse := by
              rw [List.take_append_drop]
          _ = (b.reverse.drop ((b.reverse.takeWhile (fun c => c != '.')).length + 1)).reverse
                ++ (b.reverse.take ((b.reverse.takeWhile (fun c => c != '.')).length + 1)).reverse :=
              List.reverse_append _ _

/-- The last segment is a final run of its input. -/
theorem lastSegment_takes (b : List Char) :
    b = (b.reverse.dropWhile (fun c => c != '/')).reverse ++ lastSegment b := by
  unfold lastSegment
  calc b = b.reverse.reverse := (List.reverse_reverse b).symm
    _ = (b.reverse.takeWhile (fun c => c != '/')
          ++ b.reverse.dropWhile (fun c => c != '/')).reverse := by
        rw [List.takeWhile_append_dropWhile]
    _ = (b.reverse.dropWhile (fun c => c != '/')).reverse
          ++ (b.reverse.takeWhile (fun c => c != '/')).reverse :=
        List.reverse_append _ _

/-- Dropping trailing separators keeps an initial run of the input. -/
theorem dropTrailingSep_takes (l : List Char) :
    l = dropTrailingSep l ++ (l.reverse.takeWhile (fun c => c == '/')).reverse := by
  unfold dropTrailingSep
  calc l = l.reverse.reverse := (List.reverse_reverse l).symm
    _ = (l.reverse.takeWhile (fun c => c == '/')
          ++ l.reverse.dropWhile (fun c => c == '/')).reverse := by
        rw [List.takeWhile_append_dropWhile]
    _ = (l.reverse.dropWhile (fun c => c == '/')).reverse
          ++ (l.reverse.takeWhile (fun c => c == '/')).reverse :=
        List.reverse_append _ _

/-- `path.parse`'s name is always a contiguous substring of the input: the
derivation slices the filename, it never escapes or rewrites characters. -/
theorem parseNameL_substring (l : List Char) :
    ∃ s t, l = s ++ parseNameL l ++ t := by
  obtain ⟨t3, ht3⟩ := splitExtL_fst_takes (basenameL l)
  unfold basenameL at ht3
  refine ⟨((dropTrailingSep l).reverse.dropWhile (fun c => c != '/')).reverse,
          t3 ++ (l.reverse.takeWhile (fun c => c == '/')).reverse, ?_⟩
  unfold parseNameL basenameL
  calc l = dropTrailingSep l ++ (l.reverse.takeWhile (fun c => c == '/')).reverse :=
        dropTrailingSep_takes l
    _ = (((dropTrailingSep l).reverse.dropWhile (fun c => c != '/')).reverse
          ++ lastSegment (dropTrailingSep l))
          ++ (l.reverse.takeWhile (fun c => c == '/')).reverse := by
        rw [← lastSegment_takes (dropTrailingSep l)]
    _ = (((dropTrailingSep l).reverse.dropWhile (fun c => c != '/')).reverse
          ++ ((splitExtL (lastSegment (dropTrailingSep l))).1 ++ t3))
          ++ (l.reverse.takeWhile (fun c => c == '/')).reverse := by
        rw [← ht3]
    _ = ((dropTrailingSep l).reverse.dropWhile (fun c => c != '/')).reverse
          ++ (splitExtL (lastSegment (dropTrailingSep l))).1
          ++ (t3 ++ (l.reverse.takeWhile (fun c => c == '/')).reverse) := by
        simp [List.append_assoc]

/-!
## Claim C1 — the key formula
-/

/-- **C1** (amended): for every valid ProcessingRequest whose filename
contains no directory separator and does not begin with a dot, the derived
cache key / output filename equals `base + dims + "." + ext` exactly as the
claim's formula states: base the filename without its extension, ext the
requested format if given else the filename's extension without the dot
else `jpg`, dims empty when width and height are both absent, else
`"_" + (width or "auto") + "x" + (height or "auto")`.  (As stated over
*every* ProcessingRequest the claim fails on filenames containing `/` —
`path.parse` drops the directory part — see the counterexample.) -/
theorem c1_key_matches_formula (o : ImageProcessingOptions)
    (hv : validReq o = true)
    (hsep : '/' ∉ o.filename.toList)
    (hdot : o.filename.toList.head? ≠ some '.') :
    generateProcessedFilename o = claimKeyC1 o :=
  key_eq_claimKey o hv hsep hdot

/-- Witness for C1's theorem at `("sample.jpg", 300, 200, no format)`; the
key is `"sample_300x200.jpg"` as the claim's example demands. -/
theorem c1_key_matches_formula_witness :
    validReq ⟨"sample.jpg", some (.num 300), some (.num 200), none⟩ = true ∧
    generateProcessedFilename ⟨"sample.jpg", some (.num 300), some (.num 200), none⟩
        = claimKeyC1 ⟨"sample.jpg", some (.num 300), some (.num 200), none⟩ ∧
    generateProcessedFilename ⟨"sample.jpg", some (.num 300), some (.num 200), none⟩
        = "sample_300x200.jpg" :=
  ⟨by decide,
   c1_key_matches_formula ⟨"sample.jpg", some (.num 300), some (.num 200), none⟩
     (by decide) (by decide) (by decide),
   rfl⟩

/-- **C1** as stated is false: at the ProcessingRequest
`("dir/sample.jpg", no dims, no format)` the code derives `"sample.jpg"`
(`path.parse` keeps only the last path segment) while the claim's formula
`base + dims + "." + ext` with base "the filename without its extension"
derives `"dir/sample.jpg"`. -/
theorem c1_counterexample :
    generateProcessedFilename ⟨"dir/sample.jpg", none, none, none⟩ = "sample.jpg" ∧
    claimKeyC1 ⟨"dir/sample.jpg", none, none, none⟩ = "dir/sample.jpg" ∧
    ¬ generateProcessedFilename ⟨"dir/sample.jpg", none, none, none⟩
        = claimKeyC1 ⟨"dir/sample.jpg", none, none, none⟩ :=
  ⟨rfl, rfl, by decide⟩

/-!
## Claim C2 — the two key functions are one function
-/

/-- **C2**: for every ProcessingRequest — any filename, any optional
width/height/format — the cache layer's `generateCacheKey` returns exactly
the same string as the transformer's `generateProcessedFilename` (the two
source functions are verbatim duplicates), so Cache Store and Image
Transformer never disagree on artifact placement. -/
theorem c2_generateCacheKey_eq_generateProcessedFilename
    (o : ImageProcessingOptions) :
    generateCacheKey o = generateProcessedFilename o := rfl

/-!
## Claim C7 — the base segment of the key
-/

/-- **C7** as stated is false: the base segment is *not* "the filename
stripped of its extension" for a filename containing a directory
separator — at `"assets/photo.png"` the code's base is `"photo"` while the
filename stripped of its extension is `"assets/photo"`, and the derived key
is `"photo.png"`. -/
theorem c7_counterexample :
    pathParseName "assets/photo.png" = "photo" ∧
    specBase "assets/photo.png" = "assets/photo" ∧
    generateCacheKey ⟨"assets/photo.png", none, none, none⟩ = "photo.png" ∧
    ¬ pathParseName "assets/photo.png" = specBase "assets/photo.png" :=
  ⟨rfl, rfl, rfl, by decide⟩

/-- **C7** (amended): for every filename string, pathological ones
included, key derivation is total (every branch of `generateCacheKey` is a
total function — it always returns a string) and the base segment of the
derived key is `path.parse`'s name — the filename's last path segment
stripped of its extension — which appears verbatim, unescaped and
unsanitised, as a contiguous substring of the filename: the key always has
the shape `base ++ rest` with the filename containing `base` literally. -/
theorem c7_base_verbatim_total (o : ImageProcessingOptions) :
    (∃ s t, o.filename.toList = s ++ (pathParseName o.filename).toList ++ t) ∧
    (∃ rest, generateCacheKey o = pathParseName o.filename ++ rest) := by
  constructor
  · obtain ⟨s, t, hst⟩ := parseNameL_substring o.filename.toList
    exact ⟨s, t, hst⟩
  · refine ⟨(if truthyNum o.width || truthyNum o.height then
        "_" ++ renderDim o.width ++ "x" ++ renderDim o.height
      else "") ++ ("." ++ strOr (optStrVal o.format)
        (strOr (pathParseExtNoDot o.filename) "jpg")), ?_⟩
    unfold generateCacheKey
    rw [String.append_assoc, String.append_assoc]

/-!
## Pipeline helper lemmas
-/

/-- A key present in the output directory makes `checkCache` hit. -/
theorem checkCache_hit_of_mem (root : List String) (st : Fs)
    (o : ImageProcessingOptions) (h : cachedFilePath root o ∈ st.outputPaths) :
    checkCache root (fsProbe st) o = some (cachedFilePath root o) := by
  unfold checkCache fsProbe
  simp [h]

/-- A key absent from the output directory makes `checkCache` miss. -/
theorem checkCache_miss_of_not_mem (root : List String) (st : Fs)
    (o : ImageProcessingOptions) (h : cachedFilePath root o ∉ st.outputPaths) :
    checkCache root (fsProbe st) o = none := by
  unfold checkCache fsProbe
  simp [h]

/-- A truthy filename plus a key present in the output directory make the
whole pipeline serve the cached path without invoking the transformer. -/
theorem pipeline_hit (root : List String) (st : Fs) (mkdirRes : MkdirOutcome)
    (codecRes : CodecOutcome) (q : Query)
    (hfn : (parseOptions q).filename ≠ "")
    (hhit : cachedFilePath root (parseOptions q) ∈ st.outputPaths) :
    handleRequest root st mkdirRes codecRes q
      = { outcome := .servedFile (cachedFilePath root (parseOptions q)),
          servedFromCache := true, transformInvoked := false, fs := st } := by
  unfold handleRequest handleRequestP cacheMiddleware
  simp [hfn, checkCache_hit_of_mem root st _ hhit]

/-- The route handler never reports a cache serve. -/
theorem routeHandler_not_cache (root : List String) (st : Fs)
    (mkdirRes : MkdirOutcome) (codecRes : CodecOutcome) (o : ImageProcessingOptions) :
    (routeHandler root st mkdirRes codecRes o).servedFromCache = false := by
  unfold routeHandler
  split
  · rfl
  · split
    · rfl
    · split
      · rfl
      · cases hres : (processImage root st mkdirRes codecRes o).result <;> simp [hres]

/-- When the route handler serves a file it has invoked the transformer. -/
theorem routeHandler_serve_invokes (root : List String) (st : Fs)
    (mkdirRes : MkdirOutcome) (codecRes : CodecOutcome) (o : ImageProcessingOptions)
    (p : String)
    (h : (routeHandler root st mkdirRes codecRes o).outcome = .servedFile p) :
    (routeHandler root st mkdirRes codecRes o).transformInvoked = true := by
  unfold routeHandler at h ⊢
  by_cases h1 : o.filename = ""
  · rw [if_pos h1] at h; simp at h
  · rw [if_neg h1] at h ⊢
    by_cases h2 : o.filename ∉ st.inputFiles
    · rw [if_pos h2] at h; simp at h
    · rw [if_neg h2] at h ⊢
      by_cases h3 : (invalidDim o.width || invalidDim o.height) = true
      · rw [if_pos h3] at h; simp at h
      · rw [if_neg h3] at h ⊢
        cases hres : (processImage root st mkdirRes codecRes o).result with
        | okPath p' => simp [hres]
        | procError e => simp [hres] at h

/-- The middleware's only direct reply is the missing-filename 400. -/
theorem cacheMiddleware_reply_badRequest (root : List String)
    (probe : String → ProbeOutcome) (q : Query) (r : Outcome)
    (h : cacheMiddleware root probe q = .reply r) :
    r = .badRequest "Missing required parameter: filename" := by
  unfold cacheMiddleware at h
  by_cases hf : (parseOptions q).filename = ""
  · simp [hf] at h
    exact h.symm
  · rw [if_neg hf] at h
    cases hcc : checkCache root probe (parseOptions q) with
    | some p => rw [hcc] at h; simp at h
    | none => rw [hcc] at h; simp at h

/-!
## Claim C5 — cache hit short-circuits the transformer
-/

/-- **C5**: on any request whose (truthy) derived key exists as a file in
the output directory, the cached path is served immediately and
`processImage` is never invoked; moreover, on every request whatsoever,
"serve from cache" and "transform invoked" never both happen, and any
served file came from exactly one of the two paths. -/
theorem c5_hit_serves_cache_only (root : List String) (st : Fs)
    (mkdirRes : MkdirOutcome) (codecRes : CodecOutcome) (q : Query)
    (hfn : (parseOptions q).filename ≠ "")
    (hhit : cachedFilePath root (parseOptions q) ∈ st.outputPaths) :
    (handleRequest root st mkdirRes codecRes q
      = { outcome := .servedFile (cachedFilePath root (parseOptions q)),
          servedFromCache := true, transformInvoked := false, fs := st }) ∧
    (∀ (st' : Fs) (q' : Query),
      ¬ ((handleRequest root st' mkdirRes codecRes q').servedFromCache = true ∧
         (handleRequest root st' mkdirRes codecRes q').transformInvoked = true)) ∧
    (∀ (st' : Fs) (q' : Query) (p : String),
      (handleRequest root st' mkdirRes codecRes q').outcome = .servedFile p →
      ((handleRequest root st' mkdirRes codecRes q').servedFromCache = true ∧
          (handleRequest root st' mkdirRes codecRes q').transformInvoked = false) ∨
        ((handleRequest root st' mkdirRes codecRes q').servedFromCache = false ∧
          (handleRequest root st' mkdirRes codecRes q').transformInvoked = true)) := by
  refine ⟨pipeline_hit root st mkdirRes codecRes q hfn hhit, ?_, ?_⟩
  · intro st' q'
    unfold handleRequest handleRequestP
    cases cacheMiddleware root (fsProbe st') q' with
    | reply r => simp
    | cacheHit p => simp
    | nextWith o =>
        intro hco
        rw [routeHandler_not_cache] at hco
        exact absurd hco.1 (by simp)
  · intro st' q' p hserve
    unfold handleRequest handleRequestP at hserve ⊢
    cases hmw : cacheMiddleware root (fsProbe st') q' with
    | reply r =>
        rw [hmw] at hserve
        have hr := cacheMiddleware_reply_badRequest root (fsProbe st') q' r hmw
        rw [hr] at hserve
        simp at hserve
    | cacheHit p' => left; exact ⟨rfl, rfl⟩
    | nextWith o =>
        rw [hmw] at hserve
        right
        exact ⟨routeHandler_not_cache root st' mkdirRes codecRes o,
               routeHandler_serve_invokes root st' mkdirRes codecRes o p hserve⟩

/-- Witness for C5 at a concrete hit: `pic.jpg` cached, no dims. -/
theorem c5_hit_serves_cache_only_witness :
    handleRequest ["r"] ⟨[], ["/r/public/images/processed/pic.jpg"], true⟩ .ok .success
        ⟨some "pic.jpg", none, none, none⟩
      = { outcome := .servedFile "/r/public/images/processed/pic.jpg",
          servedFromCache := true, transformInvoked := false,
          fs := ⟨[], ["/r/public/images/processed/pic.jpg"], true⟩ } :=
  (c5_hit_serves_cache_only ["r"] ⟨[], ["/r/public/images/processed/pic.jpg"], true⟩
      .ok .success ⟨some "pic.jpg", none, none, none⟩ (by decide) (by decide)).1

/-!
## Claim C10 — a storage error during the probe is a miss
-/

/-- **C10**: a storage-access error raised during the cache-existence
lookup is treated identically to the key being absent: `checkCache`
returns `null` rather than surfacing the error, and the whole pipeline
behaves exactly as it does on a miss — the caller proceeds to recompute
via the transformer. -/
theorem c10_storage_error_is_miss (root : List String) (st : Fs)
    (mkdirRes : MkdirOutcome) (codecRes : CodecOutcome) (q : Query)
    (o : ImageProcessingOptions) (msg : String) :
    checkCache root (fun _ => .error msg) o = none ∧
    checkCache root (fun _ => .error msg) o = checkCache root (fun _ => .ok false) o ∧
    handleRequestP root st (fun _ => .error msg) mkdirRes codecRes q
      = handleRequestP root st (fun _ => .ok false) mkdirRes codecRes q := by
  refine ⟨rfl, rfl, ?_⟩
  unfold handleRequestP cacheMiddleware
  by_cases hf : (parseOptions q).filename = ""
  · simp [hf]
  · simp only [if_neg hf]
    rfl

/-!
## Claim C6 — transform writes where the lookup probes
-/

/-- A successful transform core returns the derived output path and leaves
it present in the output directory. -/
theorem transformCore_ok (root : List String) (st : Fs) (codecRes : CodecOutcome)
    (o : ImageProcessingOptions) (tr0 : List FsOp) (p : String)
    (hok : (transformCore root st codecRes o tr0).result = .okPath p) :
    p = joinPath (segsPath (outputFolderSegs root)) (generateProcessedFilename o) ∧
    p ∈ (transformCore root st codecRes o tr0).fs.outputPaths := by
  unfold transformCore at hok ⊢
  by_cases hmem : o.filename ∈ st.inputFiles
  · rw [if_pos hmem] at hok ⊢
    cases codecRes with
    | success =>
        simp only [] at hok
        simp at hok
        subst hok
        simp
    | failure e corrupt => simp at hok
  · rw [if_neg hmem] at hok
    simp at hok

/-- A successful `processImage` returns the derived output path and leaves
it present in the output directory. -/
theorem processImage_ok (root : List String) (st : Fs) (mkdirRes : MkdirOutcome)
    (codecRes : CodecOutcome) (o : ImageProcessingOptions) (p : String)
    (hok : (processImage root st mkdirRes codecRes o).result = .okPath p) :
    p = joinPath (segsPath (outputFolderSegs root)) (generateProcessedFilename o) ∧
    p ∈ (processImage root st mkdirRes codecRes o).fs.outputPaths := by
  unfold processImage at hok ⊢
  by_cases hd : st.outputDirExists = true
  · rw [if_pos hd] at hok ⊢
    exact transformCore_ok root st codecRes o [] p hok
  · rw [if_neg hd] at hok ⊢
    cases mkdirRes with
    | ok => exact transformCore_ok root _ codecRes o _ p hok
    | error e => simp at hok

/-- **C6**: the path a successful `processImage` writes equals the path
`checkCache` probes — same shared output directory joined with the same
derived key — so after the transform completes, a second identical request
is a cache hit served via the lookup with no new transform invocation. -/
theorem c6_roundtrip_second_request_hits (root : List String) (st : Fs)
    (mkdirRes mkdirRes2 : MkdirOutcome) (codecRes codecRes2 : CodecOutcome)
    (q : Query) (p : String)
    (hfn : (parseOptions q).filename ≠ "")
    (hok : (processImage root st mkdirRes codecRes (parseOptions q)).result = .okPath p) :
    joinPath (segsPath (outputFolderSegs root)) (generateProcessedFilename (parseOptions q))
        = cachedFilePath root (parseOptions q) ∧
    p = cachedFilePath root (parseOptions q) ∧
    checkCache root (fsProbe (processImage root st mkdirRes codecRes (parseOptions q)).fs)
        (parseOptions q) = some (cachedFilePath root (parseOptions q)) ∧
    handleRequest root (processImage root st mkdirRes codecRes (parseOptions q)).fs
        mkdirRes2 codecRes2 q
      = { outcome := .servedFile (cachedFilePath root (parseOptions q)),
          servedFromCache := true, transformInvoked := false,
          fs := (processImage root st mkdirRes codecRes (parseOptions q)).fs } := by
  obtain ⟨hp, hmem⟩ := processImage_ok root st mkdirRes codecRes (parseOptions q) p hok
  have heq := writePath_eq_probePath root (parseOptions q)
  have hp' : p = cachedFilePath root (parseOptions q) := by rw [hp, heq]
  have hmem' : cachedFilePath root (parseOptions q)
      ∈ (processImage root st mkdirRes codecRes (parseOptions q)).fs.outputPaths := by
    rw [← hp']; exact hmem
  exact ⟨heq, hp', checkCache_hit_of_mem _ _ _ hmem',
         pipeline_hit root _ mkdirRes2 codecRes2 q hfn hmem'⟩

/-- Witness for C6: process `sample.jpg` at 300×200, then observe the
second identical request served from cache with no transform. -/
theorem c6_roundtrip_second_request_hits_witness :
    c6P = cachedFilePath ["r"] (parseOptions c6Q) ∧
    handleRequest ["r"] (processImage ["r"] c6St .ok .success (parseOptions c6Q)).fs
        .ok .success c6Q
      = { outcome := .servedFile (cachedFilePath ["r"] (parseOptions c6Q)),
          servedFromCache := true, transformInvoked := false,
          fs := (processImage ["r"] c6St .ok .success (parseOptions c6Q)).fs } := by
  have h := c6_roundtrip_second_request_hits ["r"] c6St .ok .ok .success .success c6Q c6P
    (by decide) (by decide)
  exact ⟨h.2.1, h.2.2.2⟩

/-!
## Claim C8 — SourceNotFound: explicit check, distinct from ProcessingFailed
-/

/-- Facts about the transform core: the input-not-found error occurs exactly
when the source is absent, the existence check precedes every codec
operation, an absent source means the codec never runs, and a codec failure
is wrapped as a distinct error value. -/
theorem transformCore_facts (root : List String) (st : Fs) (codecRes : CodecOutcome)
    (o : ImageProcessingOptions) (tr0 : List FsOp)
    (htr0 : ∀ op ∈ tr0, isCodecOp op = false) :
    (((transformCore root st codecRes o tr0).result
        = .procError (.failedToProcess (.inputNotFound
            (joinPath (segsPath (inputFolderSegs root)) o.filename))))
      ↔ o.filename ∉ st.inputFiles) ∧
    (o.filename ∉ st.inputFiles →
      ∀ op ∈ (transformCore root st codecRes o tr0).trace, isCodecOp op = false) ∧
    (∃ t1 t2, (transformCore root st codecRes o tr0).trace
        = t1 ++ FsOp.srcExistsCheck (joinPath (segsPath (inputFolderSegs root)) o.filename) :: t2
      ∧ ∀ op ∈ t1, isCodecOp op = false) ∧
    (∀ e corrupt, o.filename ∈ st.inputFiles → codecRes = .failure e corrupt →
      (transformCore root st codecRes o tr0).result
        = .procError (.failedToProcess (.codecError e))) := by
  unfold transformCore
  by_cases hmem : o.filename ∈ st.inputFiles
  · rw [if_pos hmem]
    cases codecRes with
    | success =>
        refine ⟨?_, fun habs => absurd hmem habs, ?_, ?_⟩
        · simp [hmem]
        · refine ⟨tr0,
            FsOp.codecRead (joinPath (segsPath (inputFolderSegs root)) o.filename)
              :: ((if truthyNum o.width || truthyNum o.height then
                    [FsOp.codecResize o.width o.height] else [])
                ++ ((if truthyStr o.format then [FsOp.codecFormat (optStrVal o.format)] else [])
                  ++ [FsOp.codecWrite (joinPath (segsPath (outputFolderSegs root))
                        (generateProcessedFilename o))])), ?_, htr0⟩
          simp [List.append_assoc]
        · intro e corrupt _ hco
          exact absurd hco (by simp)
    | failure e' corrupt' =>
        refine ⟨?_, fun habs => absurd hmem habs, ?_, ?_⟩
        · simp [hmem]
        · refine ⟨tr0,
            FsOp.codecRead (joinPath (segsPath (inputFolderSegs root)) o.filename)
              :: ((if truthyNum o.width || truthyNum o.height then
                    [FsOp.codecResize o.width o.height] else [])
                ++ ((if truthyStr o.format then [FsOp.codecFormat (optStrVal o.format)] else [])
                  ++ [FsOp.codecWrite (joinPath (segsPath (outputFolderSegs root))
                        (generateProcessedFilename o))])), ?_, htr0⟩
          simp [List.append_assoc]
        · intro e corrupt _ hco
          simp at hco
          simp [hco.1]
  · rw [if_neg hmem]
    refine ⟨?_, ?_, ?_, ?_⟩
    · simp [hmem]
    · intro _ op hop
      simp only [List.mem_append, List.mem_singleton] at hop
      rcases hop with h1 | h2
      · exact htr0 op h1
      · rw [h2]; rfl
    · refine ⟨tr0, [], by simp, htr0⟩
    · intro e corrupt hm _
      exact absurd hm hmem

/-- **C8**: provided the output directory is available (present, or its lazy
creation succeeds), `processImage` fails with the input-not-found error
exactly when the source file is absent; the failure comes from the explicit
existence check — the check appears in the trace before any codec
operation, and with the source absent the codec is never invoked at all —
and it is distinguishable from the ProcessingFailed wrappings of codec and
directory-creation errors, which carry distinct inner-error values. -/
theorem c8_sourceNotFound_explicit_check (root : List String) (st : Fs)
    (mkdirRes : MkdirOutcome) (codecRes : CodecOutcome) (o : ImageProcessingOptions)
    (hdir : st.outputDirExists = true ∨ mkdirRes = .ok) :
    (((processImage root st mkdirRes codecRes o).result
        = .procError (.failedToProcess (.inputNotFound
            (joinPath (segsPath (inputFolderSegs root)) o.filename))))
      ↔ o.filename ∉ st.inputFiles) ∧
    (o.filename ∉ st.inputFiles →
      ∀ op ∈ (processImage root st mkdirRes codecRes o).trace, isCodecOp op = false) ∧
    (∃ t1 t2, (processImage root st mkdirRes codecRes o).trace
        = t1 ++ FsOp.srcExistsCheck (joinPath (segsPath (inputFolderSegs root)) o.filename) :: t2
      ∧ ∀ op ∈ t1, isCodecOp op = false) ∧
    (∀ e corrupt, o.filename ∈ st.inputFiles → codecRes = .failure e corrupt →
      (processImage root st mkdirRes codecRes o).result
        = .procError (.failedToProcess (.codecError e))) ∧
    (∀ e e', InnerError.inputNotFound e ≠ InnerError.codecError e' ∧
             InnerError.inputNotFound e ≠ InnerError.mkdirFailed e') := by
  have hmain :
      processImage root st mkdirRes codecRes o
        = transformCore root { st with outputDirExists := true } codecRes o
            (if st.outputDirExists then [] else [FsOp.mkdirOp (segsPath (outputFolderSegs root))])
      ∨ processImage root st mkdirRes codecRes o
        = transformCore root st codecRes o [] := by
    unfold processImage
    by_cases hd : st.outputDirExists = true
    · right; rw [if_pos hd]
    · left
      rw [if_neg hd]
      rcases hdir with h1 | h2
      · exact absurd h1 hd
      · rw [h2, if_neg hd]
  have htr0a : ∀ op ∈ (if st.outputDirExists then ([] : List FsOp)
      else [FsOp.mkdirOp (segsPath (outputFolderSegs root))]), isCodecOp op = false := by
    intro op hop
    by_cases hd : st.outputDirExists = true <;> simp [hd] at hop
    rw [hop]; rfl
  rcases hmain with hcase | hcase <;> rw [hcase]
  · have h := transformCore_facts root { st with outputDirExists := true } codecRes o _ htr0a
    exact ⟨h.1, h.2.1, h.2.2.1, h.2.2.2, by intro e e'; exact ⟨by simp, by simp⟩⟩
  · have h := transformCore_facts root st codecRes o [] (by intro op hop; simp at hop)
    exact ⟨h.1, h.2.1, h.2.2.1, h.2.2.2, by intro e e'; exact ⟨by simp, by simp⟩⟩

/-- Witness for C8 at a concrete absent source: `ghost.jpg` is not in the
input directory, so the transformer fails with the input-not-found error
and never invokes the codec. -/
theorem c8_sourceNotFound_explicit_check_witness :
    (processImage ["r"] ⟨[], [], true⟩ .ok .success ⟨"ghost.jpg", none, none, none⟩).result
      = .procError (.failedToProcess (.inputNotFound "/r/images/ghost.jpg")) :=
  ((c8_sourceNotFound_explicit_check ["r"] ⟨[], [], true⟩ .ok .success
      ⟨"ghost.jpg", none, none, none⟩ (Or.inl rfl)).1).mpr (by decide)

/-!
## Claim C9 — no temp-file-plus-rename atomicity
-/

/-- Every operation a transform-core run performs is one of six known
shapes: something from the prefix trace, the source existence check, or one
of the codec steps ending in the direct write of the derived output path. -/
theorem transformCore_trace_ops (root : List String) (st : Fs)
    (codecRes : CodecOutcome) (o : ImageProcessingOptions) (tr0 : List FsOp)
    (op : FsOp) (hop : op ∈ (transformCore root st codecRes o tr0).trace) :
    op ∈ tr0 ∨
    op = FsOp.srcExistsCheck (joinPath (segsPath (inputFolderSegs root)) o.filename) ∨
    op = FsOp.codecRead (joinPath (segsPath (inputFolderSegs root)) o.filename) ∨
    op = FsOp.codecResize o.width o.height ∨
    op = FsOp.codecFormat (optStrVal o.format) ∨
    op = FsOp.codecWrite (joinPath (segsPath (outputFolderSegs root))
            (generateProcessedFilename o)) := by
  unfold transformCore at hop
  by_cases hmem : o.filename ∈ st.inputFiles
  · rw [if_pos hmem] at hop
    by_cases hwh : (truthyNum o.width || truthyNum o.height) = true <;>
      by_cases hfm : truthyStr o.format = true <;>
        cases codecRes <;>
          simp [hwh, hfm, List.mem_append] at hop <;>
            tauto
  · rw [if_neg hmem] at hop
    simp [List.mem_append] at hop
    tauto

/-- Same classification for a whole `processImage` run, adding the lazy
`mkdir` of the output directory. -/
theorem processImage_trace_ops (root : List String) (st : Fs)
    (mkdirRes : MkdirOutcome) (codecRes : CodecOutcome) (o : ImageProcessingOptions)
    (op : FsOp) (hop : op ∈ (processImage root st mkdirRes codecRes o).trace) :
    op = FsOp.mkdirOp (segsPath (outputFolderSegs root)) ∨
    op = FsOp.srcExistsCheck (joinPath (segsPath (inputFolderSegs root)) o.filename) ∨
    op = FsOp.codecRead (joinPath (segsPath (inputFolderSegs root)) o.filename) ∨
    op = FsOp.codecResize o.width o.height ∨
    op = FsOp.codecFormat (optStrVal o.format) ∨
    op = FsOp.codecWrite (joinPath (segsPath (outputFolderSegs root))
            (generateProcessedFilename o)) := by
  unfold processImage at hop
  by_cases hd : st.outputDirExists = true
  · rw [if_pos hd] at hop
    have h := transformCore_trace_ops root st codecRes o [] op hop
    rcases h with h | h
    · simp at h
    · tauto
  · rw [if_neg hd] at hop
    cases mkdirRes with
    | ok =>
        have h := transformCore_trace_ops root _ codecRes o _ op hop
        rcases h with h | h
        · simp at h; tauto
        · tauto
    | error e =>
        simp at hop
        tauto

/-- **C9** (amended): the transform performs no temp-file-and-rename
dance — in every run, every codec write in the trace targets exactly the
derived output path `outputFolder/key`, and no rename operation ever
appears; so a mid-write codec failure can leave its partial bytes directly
addressable at the derived key (the §5/§9 gap), rather than the key's state
being guaranteed unchanged on error. -/
theorem c9_direct_write_no_rename (root : List String) (st : Fs)
    (mkdirRes : MkdirOutcome) (codecRes : CodecOutcome) (o : ImageProcessingOptions) :
    (∀ p, FsOp.codecWrite p ∈ (processImage root st mkdirRes codecRes o).trace →
      p = joinPath (segsPath (outputFolderSegs root)) (generateProcessedFilename o)) ∧
    (∀ a b, FsOp.renameOp a b ∉ (processImage root st mkdirRes codecRes o).trace) := by
  constructor
  · intro p hp
    rcases processImage_trace_ops root st mkdirRes codecRes o _ hp with
      h | h | h | h | h | h <;> simp_all
  · intro a b hab
    rcases processImage_trace_ops root st mkdirRes codecRes o _ hab with
      h | h | h | h | h | h <;> simp_all

/-- **C9** as stated is false: with `sample.jpg` present, an empty output
directory and the codec failing mid-write leaving partial bytes (e.g. disk
full), the failed transform leaves a readable artifact addressable at the
derived key — the output-directory state at that key changed on error — and
the run's trace shows the write went directly to the target path with no
temporary location and no rename. -/
theorem c9_counterexample :
    (processImage ["r"] ⟨["sample.jpg"], [], true⟩ .ok (.failure "Error: disk full" true)
        ⟨"sample.jpg", some (.num 300), some (.num 200), none⟩).result
      = .procError (.failedToProcess (.codecError "Error: disk full")) ∧
    "/r/public/images/processed/sample_300x200.jpg"
      ∈ (processImage ["r"] ⟨["sample.jpg"], [], true⟩ .ok (.failure "Error: disk full" true)
          ⟨"sample.jpg", some (.num 300), some (.num 200), none⟩).fs.outputPaths ∧
    (processImage ["r"] ⟨["sample.jpg"], [], true⟩ .ok (.failure "Error: disk full" true)
        ⟨"sample.jpg", some (.num 300), some (.num 200), none⟩).trace
      = [FsOp.srcExistsCheck "/r/images/sample.jpg",
         FsOp.codecRead "/r/images/sample.jpg",
         FsOp.codecResize (some (.num 300)) (some (.num 200)),
         FsOp.codecWrite "/r/public/images/processed/sample_300x200.jpg"] := by
  refine ⟨by decide, by decide, by decide⟩

/-!
## Claim C3 — orchestrator precedence
-/

/-- **C3** (amended): for every inbound request the pipeline applies its
steps in this precedence — filename-presence validation, then the cache
lookup; on a hit the cached artifact is served with no further checks; only
on a miss the source-existence check, then the dimension validation, then
the transform.  (Not the claimed order: the cache lookup comes *before*
the existence check, and the existence check comes *before* dimension
validation.) -/
theorem c3_actual_precedence (root : List String) (st : Fs)
    (probe : String → ProbeOutcome) (mkdirRes : MkdirOutcome)
    (codecRes : CodecOutcome) (q : Query) :
    handleRequestP root st probe mkdirRes codecRes q
      = orderedOrchestrator root st probe mkdirRes codecRes q := by
  unfold handleRequestP cacheMiddleware orderedOrchestrator routeHandler
  by_cases hf : (parseOptions q).filename = ""
  · simp [hf]
  · simp only [if_neg hf]
    cases hcc : checkCache root probe (parseOptions q) with
    | some p => simp
    | none => simp [hf]

/-- **C3** as stated is false: with the source file absent from the input
directory but a matching cached artifact present in the output directory,
the request `filename=sample.jpg&width=300&height=200` is served 200 from
the cache — the pipeline does not fail with SourceNotFound as the claim
requires. -/
theorem c3_counterexample :
    handleRequest ["r"] ⟨[], ["/r/public/images/processed/sample_300x200.jpg"], true⟩
        .ok .success ⟨some "sample.jpg", some "300", some "200", none⟩
      = { outcome := .servedFile "/r/public/images/processed/sample_300x200.jpg",
          servedFromCache := true, transformInvoked := false,
          fs := ⟨[], ["/r/public/images/processed/sample_300x200.jpg"], true⟩ } ∧
    ¬ (handleRequest ["r"] ⟨[], ["/r/public/images/processed/sample_300x200.jpg"], true⟩
          .ok .success ⟨some "sample.jpg", some "300", some "200", none⟩).outcome
        = .notFoundResp "Image 'sample.jpg' not found" := by
  refine ⟨by decide, by decide⟩

/-!
## Claim C4 — invalid width and the cache short-circuit
-/

/-- **C4** as stated is false: with `sample.jpg` present in the input
directory and `width=notanumber`, the middleware runs *before* dimension
validation and derives the dimensionless key (`NaN` is falsy), so when the
output directory happens to contain `sample.jpg`, the request is served 200
from cache — not answered 400 — contradicting "regardless of the current
contents of the output/cache directory". -/
theorem c4_counterexample :
    handleRequest ["r"] ⟨["sample.jpg"], ["/r/public/images/processed/sample.jpg"], true⟩
        .ok .success ⟨some "sample.jpg", some "notanumber", none, none⟩
      = { outcome := .servedFile "/r/public/images/processed/sample.jpg",
          servedFromCache := true, transformInvoked := false,
          fs := ⟨["sample.jpg"], ["/r/public/images/processed/sample.jpg"], true⟩ } ∧
    ¬ (handleRequest ["r"] ⟨["sample.jpg"], ["/r/public/images/processed/sample.jpg"], true⟩
          .ok .success ⟨some "sample.jpg", some "notanumber", none, none⟩).outcome
        = .badRequest "Width and height must be positive numbers" := by
  refine ⟨by decide, by decide⟩

/-- **C4** (amended): for every request whose filename names an existing
source image, whose width parameter is present and does not parse as a
strictly positive number, and whose derived key misses the cache, the
response is 400 with body `Width and height must be positive numbers`, and
the transformer is not invoked. -/
theorem c4_invalid_width_400_on_miss (root : List String) (st : Fs)
    (mkdirRes : MkdirOutcome) (codecRes : CodecOutcome) (q : Query) (s : String)
    (hfn : (parseOptions q).filename ≠ "")
    (hex : (parseOptions q).filename ∈ st.inputFiles)
    (hw : q.width = some s) (hs : s ≠ "")
    (hbad : invalidDim (some (parseIntJS s)) = true)
    (hmiss : cachedFilePath root (parseOptions q) ∉ st.outputPaths) :
    (handleRequest root st mkdirRes codecRes q).outcome
        = .badRequest "Width and height must be positive numbers" ∧
    (handleRequest root st mkdirRes codecRes q).transformInvoked = false := by
  have hwid : (parseOptions q).width = some (parseIntJS s) := by
    simp [parseOptions, hw, hs]
  have hcc := checkCache_miss_of_not_mem root st (parseOptions q) hmiss
  have hreq : handleRequest root st mkdirRes codecRes q
      = routeHandler root st mkdirRes codecRes (parseOptions q) := by
    unfold handleRequest handleRequestP cacheMiddleware
    simp [hfn, hcc]
  have hcond : (invalidDim (parseOptions q).width || invalidDim (parseOptions q).height)
      = true := by
    rw [hwid, hbad]
    rfl
  have hro : routeHandler root st mkdirRes codecRes (parseOptions q)
      = { outcome := .badRequest "Width and height must be positive numbers",
          servedFromCache := false, transformInvoked := false, fs := st } := by
    unfold routeHandler
    rw [if_neg hfn, if_neg (fun hcon => hcon hex), if_pos hcond]
  rw [hreq, hro]
  exact ⟨rfl, rfl⟩

/-- Witness for C4's amended theorem: `width=notanumber`, source present,
empty output directory. -/
theorem c4_invalid_width_400_on_miss_witness :
    (handleRequest ["r"] ⟨["sample.jpg"], [], true⟩ .ok .success
        ⟨some "sample.jpg", some "notanumber", none, none⟩).outcome
      = .badRequest "Width and height must be positive numbers" :=
  (c4_invalid_width_400_on_miss ["r"] ⟨["sample.jpg"], [], true⟩ .ok .success
      ⟨some "sample.jpg", some "notanumber", none, none⟩ "notanumber"
      (by decide) (by decide) rfl (by decide) (by decide) (by decide)).1
